import Mathlib

/-!
Verification of the amla-sandbox capability engine and LangGraph façade.

The Python sources provided are `amla_sandbox/bash_tool.py`,
`amla_sandbox/langgraph.py` and `amla_sandbox/__init__.py`; the capability
engine itself (`amla_sandbox/capabilities.py`, `amla_sandbox/sandbox.py`,
`amla_sandbox/tools.py`) is consumed by those files but its source is not
part of the provided tree.  Definitions for the missing modules are
modelled from the specification (their doc comments say so explicitly);
definitions for `bash_tool.py` and `langgraph.py` are translated from the
source.
-/

namespace Amla

/-- Modelled from the spec: JSON parameter values handled by the constraint
evaluator (§4.2).  Numbers are modelled as rationals (the engine only
compares them, so Python int/float both embed into `Rat`). -/
inductive Json where
  | null
  | bool (b : Bool)
  | num (q : Rat)
  | str (s : String)
  | arr (elems : List Json)
  | obj (fields : List (String × Json))

/-- Split a character list into tokens at separators chosen by `sep`,
keeping empty tokens (helper for the pattern matcher and path traversal). -/
def splitCharsOn (sep : Char → Bool) : List Char → List Char → List String
  | [], acc => [String.mk acc.reverse]
  | c :: rest, acc =>
    if sep c then String.mk acc.reverse :: splitCharsOn sep rest []
    else splitCharsOn sep rest (c :: acc)

/-- Modelled from the spec: tokens of a method name or pattern are split on
`/` and `:` (§4.1). -/
def splitTokens (s : String) : List String :=
  splitCharsOn (fun c => c == '/' || c == ':') s.data []

/-- Modelled from the spec: constraint paths are `/`-separated (§4.2). -/
def splitPath (s : String) : List String :=
  splitCharsOn (fun c => c == '/') s.data []

/-- Fuelled core of the glob matcher: `*` matches exactly one token, `**`
matches zero or more tokens (greedy with backtracking), literal tokens match
exactly.  Each recursive call shrinks `pats.length + toks.length`, so fuel
`pats.length + toks.length + 1` always suffices; fuel keeps the definition
structural, hence kernel-computable. -/
def matchTokensGo : Nat → List String → List String → Bool
  | 0, _, _ => false
  | _ + 1, [], [] => true
  | _ + 1, [], _ :: _ => false
  | fuel + 1, pat :: ps, toks =>
    if pat = "**" then
      matchTokensGo fuel ps toks ||
        (match toks with
         | [] => false
         | _ :: ts => matchTokensGo fuel (pat :: ps) ts)
    else
      match toks with
      | [] => false
      | t :: ts => (pat = "*" || pat = t) && matchTokensGo fuel ps ts

/-- Glob matching on token lists, with always-sufficient fuel. -/
def matchTokens (ps ts : List String) : Bool :=
  matchTokensGo (ps.length + ts.length + 1) ps ts

/-- Modelled from the spec: `method_matches_pattern(pattern, method)` from the
missing `capabilities` module (§4.1): split both strings on `/` and `:` and
glob-match the token lists. -/
def method_matches_pattern (pat method : String) : Bool :=
  matchTokens (splitTokens pat) (splitTokens method)

/-- Modelled from the spec: `pattern_is_subset(a, b)` from the missing
`capabilities` module is "true when every method matched by `a` is matched by
`b`" (§4.1); with the algorithm's source unavailable, it is modelled by that
defining property. -/
def pattern_is_subset (a b : String) : Prop :=
  ∀ m : String, method_matches_pattern a m = true → method_matches_pattern b m = true

/-- Structural equality on JSON values (spec §4.2: "Set membership uses
structural equality"). -/
def Json.beq : Json → Json → Bool
  | .null, .null => true
  | .bool a, .bool b => a == b
  | .num a, .num b => a == b
  | .str a, .str b => a == b
  | .arr a, .arr b => beqList a b
  | .obj a, .obj b => beqFields a b
  | _, _ => false
where
  beqList : List Json → List Json → Bool
    | [], [] => true
    | x :: xs, y :: ys => Json.beq x y && beqList xs ys
    | _, _ => false
  beqFields : List (String × Json) → List (String × Json) → Bool
    | [], [] => true
    | (k, x) :: xs, (l, y) :: ys => k == l && Json.beq x y && beqFields xs ys
    | _, _ => false

/-- Parse a non-negative decimal array index (path segments applied to
arrays accept integer indices, §4.2). -/
def parseIndex (s : String) : Option Nat :=
  if s.data ≠ [] ∧ s.data.all Char.isDigit then
    some (s.data.foldl (fun acc c => acc * 10 + (c.toNat - '0'.toNat)) 0)
  else none

/-- Modelled from the spec: path traversal (§4.2) — segments are applied to
objects by key, arrays accept integer indices, a missing segment yields
"path absent" (`none`). -/
def getPath : Json → List String → Option Json
  | j, [] => some j
  | .obj fields, seg :: rest =>
    match fields.lookup seg with
    | some v => getPath v rest
    | none => none
  | .arr elems, seg :: rest =>
    match parseIndex seg with
    | some i =>
      match elems.get? i with
      | some v => getPath v rest
      | none => none
    | none => none
  | _, _ :: _ => none

/-- Comparison operators of the constraint sum type (§ Data model:
`cmp(op, path, value)` for `= ≠ < ≤ > ≥`). -/
inductive CmpOp where
  | eq | ne | lt | le | gt | ge
deriving DecidableEq, Repr

/-- Does a comparison operator hold of an `Ordering` outcome? -/
def CmpOp.holds : CmpOp → Ordering → Bool
  | .eq, o => o == .eq
  | .ne, o => o != .eq
  | .lt, o => o == .lt
  | .le, o => o != .gt
  | .gt, o => o == .gt
  | .ge, o => o != .lt

/-- Three-way comparison on rationals. -/
def ordRat (x y : Rat) : Ordering :=
  if x < y then .lt else if y < x then .gt else .eq

/-- Three-way lexicographic comparison on strings. -/
def ordStr (x y : String) : Ordering :=
  if x < y then .lt else if y < x then .gt else .eq

/-- Modelled from the spec: comparisons apply to numbers, strings
(lexicographic) and booleans (`false < true`); mixed types fail (§4.2). -/
def evalCmp (op : CmpOp) (a b : Json) : Bool :=
  match a, b with
  | .num x, .num y => op.holds (ordRat x y)
  | .str x, .str y => op.holds (ordStr x y)
  | .bool x, .bool y => op.holds (ordRat (cond x 1 0) (cond y 1 0))
  | _, _ => false

/-- Modelled from the spec: the constraint sum type (§ Data model,
"Constraint"): comparisons, set membership, string predicates, existence,
and composite `and`/`or` over child lists. -/
inductive Constraint where
  | cmp (op : CmpOp) (path : String) (value : Json)
  | is_in (path : String) (set : List Json)
  | not_in (path : String) (set : List Json)
  | starts_with (path : String) (pre : String)
  | ends_with (path : String) (suf : String)
  | containsC (path : String) (sub : String)
  | existsC (path : String)
  | not_exists (path : String)
  | andC (children : List Constraint)
  | orC (children : List Constraint)

/-- `pre` is a prefix of `s`, on character lists (kernel-computable form of
`str.startswith`). -/
def charsIsPre : List Char → List Char → Bool
  | [], _ => true
  | _ :: _, [] => false
  | a :: ps, b :: ss => a == b && charsIsPre ps ss

/-- String prefix test on the character representation. -/
def strStartsWith (s pre : String) : Bool := charsIsPre pre.data s.data

/-- String suffix test on the character representation. -/
def strEndsWith (s suf : String) : Bool :=
  charsIsPre suf.data.reverse s.data.reverse

/-- Substring containment test. -/
def strContains (s sub : String) : Bool :=
  go s.data
where
  go : List Char → Bool
    | [] => charsIsPre sub.data []
    | c :: rest => charsIsPre sub.data (c :: rest) || go rest

/-- Modelled from the spec: constraint evaluation over a parameter value
(§4.2) — missing paths fail comparison/set/string predicates and satisfy
`not_exists`; string predicates require a string; `exists` needs a non-null
value; empty `and` succeeds and empty `or` fails.  The result is the
success/failure classification of the evaluator. -/
def Constraint.eval (params : Json) : Constraint → Bool
  | .cmp op path v =>
    match getPath params (splitPath path) with
    | some a => evalCmp op a v
    | none => false
  | .is_in path set =>
    match getPath params (splitPath path) with
    | some a => set.any (Json.beq a)
    | none => false
  | .not_in path set =>
    match getPath params (splitPath path) with
    | some a => !(set.any (Json.beq a))
    | none => false
  | .starts_with path pre =>
    match getPath params (splitPath path) with
    | some (.str s) => strStartsWith s pre
    | _ => false
  | .ends_with path suf =>
    match getPath params (splitPath path) with
    | some (.str s) => strEndsWith s suf
    | _ => false
  | .containsC path sub =>
    match getPath params (splitPath path) with
    | some (.str s) => strContains s sub
    | _ => false
  | .existsC path =>
    match getPath params (splitPath path) with
    | some .null => false
    | some _ => true
    | none => false
  | .not_exists path =>
    match getPath params (splitPath path) with
    | some .null => true
    | some _ => false
    | none => true
  | .andC children => evalAll children
  | .orC children => evalAny children
where
  evalAll : List Constraint → Bool
    | [] => true
    | c :: cs => Constraint.eval params c && evalAll cs
  evalAny : List Constraint → Bool
    | [] => false
    | c :: cs => Constraint.eval params c || evalAny cs

/-- Modelled from the spec: a `ConstraintSet` is an ordered list of
constraints evaluated in conjunction (§ Data model, "ConstraintSet"). -/
structure ConstraintSet where
  constraints : List Constraint

/-- `ConstraintSet.is_empty()` from the source API (`bash_tool.py` tests it
before attaching constraints to a capability). -/
def ConstraintSet.is_empty (s : ConstraintSet) : Bool := s.constraints.isEmpty

/-- Modelled from the spec: conjunction over the ordered list; the empty set
is always satisfied (§ Data model, "ConstraintSet"). -/
def ConstraintSet.evaluate (s : ConstraintSet) (params : Json) : Bool :=
  go s.constraints
where
  go : List Constraint → Bool
    | [] => true
    | c :: cs => c.eval params && go cs

/-- Modelled from the spec: `MethodCapability` — a glob pattern, optional
constraint set, optional budget and its remaining-call tracker (§ Data
model, "MethodCapability"). -/
structure MethodCapability where
  method_pattern : String
  constraints : Option ConstraintSet := none
  max_calls : Option Nat := none
  remaining_calls : Option Nat := none

/-- Modelled from the spec: a capability's canonical key,
`cap:method:<pattern>` (§ Data model). -/
def MethodCapability.key (c : MethodCapability) : String :=
  "cap:method:" ++ c.method_pattern

/-- A capability with no constraint set is unconditionally satisfied;
otherwise its constraint set is evaluated (§4.3). -/
def constraintsOk (c : MethodCapability) (params : Json) : Bool :=
  match c.constraints with
  | none => true
  | some s => s.evaluate params

/-- Budget gate: when a budget is tracked, the capability is eligible only
while `remaining_calls > 0`; an absent tracker means unlimited (§4.3). -/
def budgetOk (c : MethodCapability) : Bool :=
  match c.remaining_calls with
  | none => true
  | some r => decide (0 < r)

/-- Modelled from the spec: the typed denial taxonomy of `authorize`
(§4.3): `not_authorized`, `constraint`, `budget_exhausted`. -/
inductive Denial where
  | not_authorized | constraint | budget_exhausted
deriving DecidableEq, Repr

/-- Scanning core of `authorize`: walk the capabilities in construction
order carrying the index of the current entry and whether a pattern-matching
entry has so far failed only on budget (`sawExhaust`) or on constraints
(`sawConstraint`); the first eligible entry wins, and the flags pick the
denial kind when none is eligible (§4.3). -/
def authorizeGo (m : String) (p : Json) :
    List MethodCapability → Nat → Bool → Bool → Except Denial Nat
  | [], _, sawExhaust, sawConstraint =>
    .error
      (if sawExhaust then .budget_exhausted
       else if sawConstraint then .constraint
       else .not_authorized)
  | c :: rest, idx, sawExhaust, sawConstraint =>
    if method_matches_pattern c.method_pattern m then
      if constraintsOk c p then
        if budgetOk c then .ok idx
        else authorizeGo m p rest (idx + 1) true sawConstraint
      else authorizeGo m p rest (idx + 1) sawExhaust true
    else authorizeGo m p rest (idx + 1) sawExhaust sawConstraint

/-- Modelled from the spec: `authorize(method, params)` scans capabilities in
order and returns the first whose pattern matches, whose constraints are
satisfied and whose budget (if set) is positive, without mutating state;
otherwise a typed denial (§4.3).  The returned value is the index of the
authorized capability in the set. -/
def authorize (caps : List MethodCapability) (m : String) (p : Json) :
    Except Denial Nat :=
  authorizeGo m p caps 0 false false

/-- Modelled from the spec: `can_call(method, params)` — true when some
capability's pattern matches, constraints hold and budget remains; the spec
states it is equivalent to `authorize(...).is_ok()` (§4.3). -/
def can_call (caps : List MethodCapability) (m : String) (p : Json) : Bool :=
  caps.any fun c =>
    method_matches_pattern c.method_pattern m && constraintsOk c p && budgetOk c

/-- Modelled from the spec: `charge(&Capability)` decrements
`remaining_calls` when set (§4.3). -/
def chargeCap (c : MethodCapability) : MethodCapability :=
  { c with remaining_calls := c.remaining_calls.map (· - 1) }

/-- Charge the capability at position `i` of the set, leaving the others
untouched. -/
def chargeAt : List MethodCapability → Nat → List MethodCapability
  | [], _ => []
  | c :: rest, 0 => chargeCap c :: rest
  | c :: rest, n + 1 => c :: chargeAt rest n

/-- One invocation attempt: authorize, and on success charge the authorized
capability exactly once (the budget is charged at dispatch, before the
handler runs); denials leave the set untouched.  Returns the new set and the
index charged, if any (§4.3, §4.7 "Dispatch"). -/
def step (caps : List MethodCapability) (m : String) (p : Json) :
    List MethodCapability × Option Nat :=
  match authorize caps m p with
  | .ok i => (chargeAt caps i, some i)
  | .error _ => (caps, none)

/-- Run a sequence of invocation attempts, collecting for each the index of
the capability charged (`none` for a denied invocation). -/
def runTrace :
    List MethodCapability → List (String × Json) →
    List MethodCapability × List (Option Nat)
  | caps, [] => (caps, [])
  | caps, (m, p) :: rest =>
    let s := step caps m p
    let r := runTrace s.1 rest
    (r.1, s.2 :: r.2)

/-! ## Embedding of `src/amla_sandbox/bash_tool.py` -/

/-- A Python number as produced by `int(s)` / `float(s)` in
`_parse_number`; floats are represented exactly as rationals. -/
inductive PyNum where
  | int (n : Int)
  | float (q : Rat)

/-- Inject a parsed Python number into the constraint value space. -/
def PyNum.toJson : PyNum → Json
  | .int n => .num (n : Rat)
  | .float q => .num q

/-- A value of a per-parameter constraint specification as accepted by
`_parse_constraints`: a string, a list (enum of allowed values), a number
(Python booleans, being ints, also land in the numeric case), or anything
else (ignored by the parser). -/
inductive PyVal where
  | str (s : String)
  | list (elems : List Json)
  | num (n : PyNum)
  | other

/-- The whitespace characters stripped by Python's `str.strip()`
(the ASCII ones; the model restricts to ASCII text). -/
def isPyWhitespace (c : Char) : Bool :=
  c == ' ' || c == '\t' || c == '\n' || c == '\r' || c == '\x0b' || c == '\x0c'

/-- `str.strip()`: drop leading and trailing whitespace. -/
def pyStrip (s : String) : String :=
  String.mk (((s.data.dropWhile isPyWhitespace).reverse.dropWhile isPyWhitespace).reverse)

/-- Strip an optional leading sign, returning whether it was `-` and the
remaining characters. -/
def stripSign : List Char → Bool × List Char
  | '+' :: rest => (false, rest)
  | '-' :: rest => (true, rest)
  | cs => (false, cs)

/-- Decimal value of a digit list. -/
def digitsToNat (ds : List Char) : Nat :=
  ds.foldl (fun acc c => acc * 10 + (c.toNat - '0'.toNat)) 0

/-- Python `int(s)` on an already-stripped string, modelled as an optional
sign followed by one or more ASCII digits (the model omits underscore
digit separators and non-ASCII digits). -/
def parseIntChars (cs : List Char) : Option Int :=
  let sr := stripSign cs
  if sr.2 ≠ [] ∧ sr.2.all Char.isDigit then
    some (if sr.1 then -(digitsToNat sr.2 : Int) else (digitsToNat sr.2 : Int))
  else none

/-- Split a character list at the first `e`/`E`, if any (exponent marker of
a float literal). -/
def splitAtExp : List Char → List Char × Option (List Char)
  | [] => ([], none)
  | c :: cs =>
    if c == 'e' || c == 'E' then ([], some cs)
    else
      let r := splitAtExp cs
      (c :: r.1, r.2)

/-- Python `float(s)` on an already-stripped string containing a `.`,
modelled as an optional sign, a decimal mantissa with exactly one point and
at least one digit, and an optional integer exponent (the model omits
underscore digit separators). -/
def parseFloatChars (cs : List Char) : Option Rat :=
  let sr := stripSign cs
  let me := splitAtExp sr.2
  let intPart := me.1.takeWhile (· ≠ '.')
  match me.1.drop intPart.length with
  | '.' :: fracPart =>
    if intPart.all Char.isDigit ∧ fracPart.all Char.isDigit ∧
        (intPart ≠ [] ∨ fracPart ≠ []) then
      let mant : Rat :=
        (digitsToNat intPart : Rat) + (digitsToNat fracPart : Rat) / (10 : Rat) ^ fracPart.length
      let signedMant := if sr.1 then -mant else mant
      match me.2 with
      | none => some signedMant
      | some expChars =>
        match parseIntChars expChars with
        | some e => some (signedMant * (10 : Rat) ^ e)
        | none => none
    else none
  | _ => none

/-- `_parse_number(s)`: strip whitespace, then parse as `float` when the
stripped string contains a `.` and as `int` otherwise; `none` models the
`ValueError` raised on an invalid numeric string. -/
def _parse_number (s : String) : Option PyNum :=
  let t := pyStrip s
  if t.data.contains '.' then (parseFloatChars t.data).map .float
  else (parseIntChars t.data).map .int

/-- Drop the first `n` characters of a string (Python slicing `s[n:]` and
`str.removeprefix` on a known prefix). -/
def strDrop (s : String) (n : Nat) : String := String.mk (s.data.drop n)

/-- `_parse_string_constraint(param, spec)`: recognize `<=`, `>=`, `==`,
`<`, `>` followed by a number (an invalid number makes the branch return
`None`, modelling the caught `ValueError`), then `startswith:`-prefixed
specs; any other format yields `None`. -/
def _parse_string_constraint (param spec : String) : Option Constraint :=
  if strStartsWith spec "<=" then
    (_parse_number (strDrop spec 2)).map fun n => .cmp .le param n.toJson
  else if strStartsWith spec ">=" then
    (_parse_number (strDrop spec 2)).map fun n => .cmp .ge param n.toJson
  else if strStartsWith spec "==" then
    (_parse_number (strDrop spec 2)).map fun n => .cmp .eq param n.toJson
  else if strStartsWith spec "<" then
    (_parse_number (strDrop spec 1)).map fun n => .cmp .lt param n.toJson
  else if strStartsWith spec ">" then
    (_parse_number (strDrop spec 1)).map fun n => .cmp .gt param n.toJson
  else if strStartsWith spec "startswith:" then
    some (.starts_with param (strDrop spec 11))
  else none

/-- `_parse_constraints(spec)`: walk the parameter → specification entries
in order, turning strings into parsed constraints (dropped when
unrecognized), lists into membership constraints, and numbers into exact
equality constraints; everything else contributes nothing. -/
def _parse_constraints (spec : List (String × PyVal)) : ConstraintSet :=
  ⟨go spec⟩
where
  go : List (String × PyVal) → List Constraint
    | [] => []
    | (param, v) :: rest =>
      (match v with
       | .str s =>
         match _parse_string_constraint param s with
         | some c => [c]
         | none => []
       | .list l => [Constraint.is_in param l]
       | .num n => [Constraint.cmp .eq param n.toJson]
       | .other => []) ++ go rest

/-- Default call limit per tool when none specified (`DEFAULT_MAX_CALLS`). -/
def DEFAULT_MAX_CALLS : Nat := 100

/-- The `max_calls` argument of `create_sandbox_tool`:
`int | dict[str, int] | None`. -/
inductive MaxCallsSpec where
  | noneSpec
  | intSpec (k : Nat)
  | dictSpec (d : List (String × Nat))

/-- Modelled from the spec: `capability_from_function` (from the `tools`
module, whose source is not in the provided tree) builds the capability for
one tool function: the pattern is `mcp:` + the function name (the test suite
recovers the name via `method_pattern.split(":")[-1]` and the handler strips
the `mcp:` prefix), with the given constraints and budget; `remaining_calls`
starts at `max_calls`. -/
def capability_from_function (name : String) (constraints : Option ConstraintSet)
    (max_calls : Option Nat) : MethodCapability :=
  { method_pattern := "mcp:" ++ name
    constraints := constraints
    max_calls := max_calls
    remaining_calls := max_calls }

/-- `_build_capabilities(tools, constraints, max_calls)`: one capability per
tool function (represented by its name), with that tool's parsed
constraints (omitted entirely when the parsed set is empty) and its call
limit: the global int if given, the per-tool dict entry or
`DEFAULT_MAX_CALLS` if absent, and `DEFAULT_MAX_CALLS` when `max_calls` is
`None`.  `create_sandbox_tool` passes its arguments straight through to
this function. -/
def _build_capabilities (tools : List String)
    (constraints : Option (List (String × List (String × PyVal))))
    (max_calls : MaxCallsSpec) : List MethodCapability :=
  tools.map fun name =>
    let toolConstraints :=
      match constraints with
      | none => []
      | some m => (m.lookup name).getD []
    let constraint_set := _parse_constraints toolConstraints
    let limit :=
      match max_calls with
      | .noneSpec => DEFAULT_MAX_CALLS
      | .intSpec k => k
      | .dictSpec d => (d.lookup name).getD DEFAULT_MAX_CALLS
    capability_from_function name
      (if constraint_set.is_empty then none else some constraint_set)
      (some limit)

/-- The claim's notion of a recognized constraint-specification string: one
of the five comparison operators followed by a string `_parse_number`
accepts, or a `startswith:`-prefixed spec. -/
def recognizedSpec (s : String) : Bool :=
  (strStartsWith s "<=" && (_parse_number (strDrop s 2)).isSome) ||
  (strStartsWith s ">=" && (_parse_number (strDrop s 2)).isSome) ||
  (strStartsWith s "==" && (_parse_number (strDrop s 2)).isSome) ||
  (strStartsWith s "<" && (_parse_number (strDrop s 1)).isSome) ||
  (strStartsWith s ">" && (_parse_number (strDrop s 1)).isSome) ||
  strStartsWith s "startswith:"

/-! ## Embedding of `src/amla_sandbox/langgraph.py` -/

/-- `ExecutionResult`: structured result of code execution in the sandbox,
with the source's field defaults.  `return_value : Any = None` is modelled
as an optional JSON value. -/
structure ExecutionResult where
  stdout : String := ""
  stderr : String := ""
  return_value : Option Json := none
  error : Option String := none
  success : Bool := true

/-- `ExecutionResult.to_tool_message()`: join the non-empty parts (stdout,
then tagged stderr, then tagged error), or `"(no output)"` when all are
empty.  Python truthiness of the optional `error` string means an empty
message is skipped too. -/
def ExecutionResult.to_tool_message (r : ExecutionResult) : String :=
  let parts :=
    (if r.stdout != "" then [r.stdout] else []) ++
    (if r.stderr != "" then ["[stderr]: " ++ r.stderr] else []) ++
    (match r.error with
     | some e => if e != "" then ["[error]: " ++ e] else []
     | none => [])
  if parts.isEmpty then "(no output)" else String.intercalate "\n" parts

/-- Modelled from the spec: the outcome of one underlying `Sandbox.execute`
or `Sandbox.shell` call (§4.9) — either the captured stdout or the message
of the raised exception, together with the sandbox's `last_stderr` buffer as
read immediately afterwards. -/
structure SandboxOutcome where
  result : Except String String
  last_stderr : String

/-- Modelled from the spec: the `Sandbox` class (its source module is not in
the provided tree) seen through the two entry points `SandboxTool` uses,
each a function of the code string and optional stdin. -/
structure Sandbox where
  executeJS : String → Option String → SandboxOutcome
  shellCmd : String → Option String → SandboxOutcome

/-- `SandboxTool`: the LangGraph-facing façade, holding the sandbox and the
configured default language (source default `"javascript"`). -/
structure SandboxTool where
  sandbox : Sandbox
  default_language : String := "javascript"

/-- `SandboxTool.execute(code, stdin)`: run JavaScript in the sandbox and
wrap the outcome — stdout with `success=True` on return, the exception
message with `success=False` on raise, never propagating. -/
def SandboxTool.execute (t : SandboxTool) (code : String)
    (stdin : Option String) : ExecutionResult :=
  let o := t.sandbox.executeJS code stdin
  match o.result with
  | .ok output => { stdout := output, stderr := o.last_stderr, success := true }
  | .error e => { error := some e, stderr := o.last_stderr, success := false }

/-- `SandboxTool.shell(command, stdin)`: run a shell pipeline in the sandbox
and wrap the outcome exactly as `execute` does. -/
def SandboxTool.shell (t : SandboxTool) (command : String)
    (stdin : Option String) : ExecutionResult :=
  let o := t.sandbox.shellCmd command stdin
  match o.result with
  | .ok output => { stdout := output, stderr := o.last_stderr, success := true }
  | .error e => { error := some e, stderr := o.last_stderr, success := false }

/-- `SandboxTool.run(code, language, stdin)`: choose the language (the given
one, or `default_language` when `None`), dispatch to `shell` exactly when it
equals `"shell"` and to `execute` otherwise, and format the result for LLM
consumption. -/
def SandboxTool.run (t : SandboxTool) (code : String)
    (language : Option String) (stdin : Option String) : String :=
  let lang := language.getD t.default_language
  let result := if lang == "shell" then t.shell code stdin else t.execute code stdin
  result.to_tool_message

/-! ## Concrete instances used to witness the theorems -/

/-- `is_ok()` on an authorization result. -/
def isOkE : Except Denial Nat → Bool
  | .ok _ => true
  | .error _ => false

/-- A sandbox whose two entry points succeed and tag their input, to
exercise the façade on concrete data. -/
def sampleSandbox : Sandbox :=
  { executeJS := fun code _ => { result := .ok ("js:" ++ code), last_stderr := "" }
    shellCmd := fun cmd _ => { result := .ok ("sh:" ++ cmd), last_stderr := "" } }

/-- A façade over `sampleSandbox` with the source's default language. -/
def sampleTool : SandboxTool := { sandbox := sampleSandbox }

/-- A sandbox whose JavaScript entry point raises, to exercise the failure
path of the façade. -/
def failSandbox : Sandbox :=
  { executeJS := fun _ _ => { result := .error "boom", last_stderr := "warn" }
    shellCmd := fun _ _ => { result := .error "boom", last_stderr := "warn" } }

/-- A façade over `failSandbox`. -/
def failTool : SandboxTool := { sandbox := failSandbox }

/-- A one-capability set with a budget of two calls, as built for a tool
function named `add`. -/
def twoCallCaps : List MethodCapability :=
  [capability_from_function "add" none (some 2)]

/-- Four invocation attempts against `twoCallCaps`: two in-budget calls, a
non-matching method, and a third matching call that exhausts the budget. -/
def fourCallTrace : List (String × Json) :=
  [("mcp:add", .obj []), ("mcp:add", .obj []), ("zzz", .obj []), ("mcp:add", .obj [])]

/-! ## Theorems -/

/-- Claim C7: the pattern matcher on the spec's concrete cases —
`matches("mcp:**", "mcp:claims.create")` and
`matches("data/*/read", "data/users/read")` are true, while
`matches("data/*/read", "data/users/admin/read")` is false, with tokens
split on `/` and `:`, `*` matching exactly one token and `**` zero or
more. -/
theorem c7_pattern_matcher_cases :
    method_matches_pattern "mcp:**" "mcp:claims.create" = true ∧
    method_matches_pattern "data/*/read" "data/users/read" = true ∧
    method_matches_pattern "data/*/read" "data/users/admin/read" = false := by
  refine ⟨by decide, by decide, by decide⟩

/-- Claim C6: pattern-subset soundness — whenever `is_subset(q, p)` holds
and `q` matches a method `m`, `p` matches `m` as well. -/
theorem c6_pattern_subset_sound (q p m : String) (hsub : pattern_is_subset q p)
    (hq : method_matches_pattern q m = true) :
    method_matches_pattern p m = true :=
  hsub m hq

/-- Witness for C6 at the subset pair `("data/*", "data/*")` and the method
`"data/users"`. -/
theorem c6_pattern_subset_sound_witness :
    pattern_is_subset "data/*" "data/*" ∧
    method_matches_pattern "data/*" "data/users" = true :=
  ⟨fun _ h => h,
   c6_pattern_subset_sound "data/*" "data/*" "data/users" (fun _ h => h) (by decide)⟩

/-- Claim C3: `SandboxTool.run` dispatches to the shell entry point when the
language is `"shell"`, to the JavaScript execute entry point for any other
language, and substitutes the configured `default_language` when the
language is omitted. -/
theorem c3_run_dispatch (t : SandboxTool) (code : String) (stdin : Option String) :
    t.run code (some "shell") stdin = (t.shell code stdin).to_tool_message ∧
    (∀ lang : String, lang ≠ "shell" →
      t.run code (some lang) stdin = (t.execute code stdin).to_tool_message) ∧
    t.run code none stdin =
      (if t.default_language == "shell" then t.shell code stdin
       else t.execute code stdin).to_tool_message := by
  refine ⟨rfl, ?_, rfl⟩
  intro lang h
  simp [SandboxTool.run, h]

/-- Witness for C3: on the sample façade, an explicit non-shell language
takes the JavaScript path. -/
theorem c3_run_dispatch_witness :
    sampleTool.run "1+1" (some "python") none =
      (sampleTool.execute "1+1" none).to_tool_message :=
  (c3_run_dispatch sampleTool "1+1" none).2.1 "python" (by decide)

/-- Claim C10: every language other than exactly `"shell"` — including
unrecognized values such as `"python"` — sends the code to the JavaScript
execute entry point; only the exact string `"shell"` selects the shell
pipeline. -/
theorem c10_only_shell_selects_shell (t : SandboxTool) (code : String)
    (stdin : Option String) (lang : String) :
    (lang ≠ "shell" →
      t.run code (some lang) stdin = (t.execute code stdin).to_tool_message) ∧
    t.run code (some "shell") stdin = (t.shell code stdin).to_tool_message := by
  refine ⟨?_, rfl⟩
  intro h
  simp [SandboxTool.run, h]

/-- Witness for C10: on the failing façade, the unrecognized language
`"python"` still reaches the JavaScript path instead of being rejected. -/
theorem c10_only_shell_selects_shell_witness :
    failTool.run "x" (some "python") none =
      (failTool.execute "x" none).to_tool_message :=
  (c10_only_shell_selects_shell failTool "x" none "python").1 (by decide)

/-- Claim C4: `SandboxTool.execute` wraps a successful underlying execution
as an `ExecutionResult` carrying the captured stdout with `success = True`
and `error = None`, and wraps any raised exception as a structured result
with `success = False` carrying the error message — it never propagates. -/
theorem c4_execute_wraps_outcome (t : SandboxTool) (code : String)
    (stdin : Option String) :
    (∀ out st, t.sandbox.executeJS code stdin = ⟨.ok out, st⟩ →
      t.execute code stdin =
        { stdout := out, stderr := st, return_value := none,
          error := none, success := true }) ∧
    (∀ e st, t.sandbox.executeJS code stdin = ⟨.error e, st⟩ →
      t.execute code stdin =
        { stdout := "", stderr := st, return_value := none,
          error := some e, success := false }) := by
  constructor <;> intro a st h <;> simp [SandboxTool.execute, h]

/-- Witness for C4: the success path on the sample façade and the failure
path on the failing façade, both at concrete inputs. -/
theorem c4_execute_wraps_outcome_witness :
    sampleTool.execute "x" none =
      { stdout := "js:x", stderr := "", return_value := none,
        error := none, success := true } ∧
    failTool.execute "x" none =
      { stdout := "", stderr := "warn", return_value := none,
        error := some "boom", success := false } :=
  ⟨(c4_execute_wraps_outcome sampleTool "x" none).1 "js:x" "" rfl,
   (c4_execute_wraps_outcome failTool "x" none).2 "boom" "warn" rfl⟩

/-- Claim C8: the empty `ConstraintSet` is the identity of conjunction — it
evaluates to success on every parameter value, a capability carrying it is
satisfied exactly when one carrying no constraint set is, and authorization
against the two capabilities coincides. -/
theorem c8_empty_constraint_set_identity :
    (∀ p : Json, ConstraintSet.evaluate ⟨[]⟩ p = true) ∧
    (∀ (c : MethodCapability) (p : Json),
      constraintsOk { c with constraints := some ⟨[]⟩ } p =
        constraintsOk { c with constraints := none } p) ∧
    (∀ (c : MethodCapability) (m : String) (p : Json),
      authorize [{ c with constraints := some ⟨[]⟩ }] m p =
        authorize [{ c with constraints := none }] m p) :=
  ⟨fun _ => rfl, fun _ _ => rfl, fun _ _ _ => rfl⟩

/-- The scan of `authorizeGo` succeeds exactly when some remaining
capability matches the method, satisfies its constraints and has budget,
whatever the running index and denial flags. -/
theorem authorizeGo_isOk (m : String) (p : Json) (caps : List MethodCapability) :
    ∀ (idx : Nat) (se sc : Bool),
      isOkE (authorizeGo m p caps idx se sc) =
        caps.any (fun c =>
          method_matches_pattern c.method_pattern m && constraintsOk c p && budgetOk c) := by
  induction caps with
  | nil => intro idx se sc; simp [authorizeGo, isOkE]
  | cons c rest ih =>
    intro idx se sc
    simp only [authorizeGo, List.any_cons]
    by_cases h1 : method_matches_pattern c.method_pattern m = true
    · by_cases h2 : constraintsOk c p = true
      · by_cases h3 : budgetOk c = true
        · simp [h1, h2, h3, isOkE]
        · simp only [Bool.not_eq_true] at h3
          simp [h1, h2, h3, ih]
      · simp only [Bool.not_eq_true] at h2
        simp [h1, h2, ih]
    · simp only [Bool.not_eq_true] at h1
      simp [h1, ih]

/-- Claim C2: `can_call(m, p)` returns true exactly when `authorize(m, p)`
returns an `Ok` result; both are pure functions of the capability set in
this embedding, so neither mutates it. -/
theorem c2_can_call_iff_authorize_ok (caps : List MethodCapability)
    (m : String) (p : Json) :
    can_call caps m p = isOkE (authorize caps m p) :=
  (authorizeGo_isOk m p caps 0 false false).symm

/-- Claim C9: every capability `_build_capabilities` produces carries a
finite budget — `DEFAULT_MAX_CALLS = 100` when `max_calls` is `None` or the
tool's name is absent from a per-tool dict, and the given limit when
`max_calls` is an int; no produced capability is unlimited. -/
theorem c9_default_finite_budget (tools : List String)
    (constraints : Option (List (String × List (String × PyVal))))
    (i : Nat) (name : String) (h : tools.get? i = some name) :
    ((_build_capabilities tools constraints .noneSpec).get? i).map
        MethodCapability.max_calls = some (some 100) ∧
    (∀ d : List (String × Nat), d.lookup name = none →
      ((_build_capabilities tools constraints (.dictSpec d)).get? i).map
          MethodCapability.max_calls = some (some 100)) ∧
    (∀ k : Nat,
      ((_build_capabilities tools constraints (.intSpec k)).get? i).map
          MethodCapability.max_calls = some (some k)) ∧
    (∀ mc : MaxCallsSpec,
      ((_build_capabilities tools constraints mc).get? i).map
          MethodCapability.max_calls ≠ some none) := by
  have h' : tools[i]? = some name := by
    rwa [List.get?_eq_getElem?] at h
  refine ⟨?_, ?_, ?_, ?_⟩
  · simp [_build_capabilities, List.getElem?_map, h', capability_from_function,
      DEFAULT_MAX_CALLS]
  · intro d hd
    simp [_build_capabilities, List.getElem?_map, h', hd, capability_from_function,
      DEFAULT_MAX_CALLS]
  · intro k
    simp [_build_capabilities, List.getElem?_map, h', capability_from_function]
  · intro mc
    cases mc <;>
      simp [_build_capabilities, List.getElem?_map, h', capability_from_function]

/-- Witness for C9 on a single tool named `add`: default limit 100 with no
`max_calls`, 100 when the dict names only other tools, and 50 when the
global int limit is 50. -/
theorem c9_default_finite_budget_witness :
    ((_build_capabilities ["add"] none .noneSpec).get? 0).map
        MethodCapability.max_calls = some (some 100) ∧
    ((_build_capabilities ["add"] none (.dictSpec [("greet", 20)])).get? 0).map
        MethodCapability.max_calls = some (some 100) ∧
    ((_build_capabilities ["add"] none (.intSpec 50)).get? 0).map
        MethodCapability.max_calls = some (some 50) :=
  ⟨(c9_default_finite_budget ["add"] none 0 "add" rfl).1,
   (c9_default_finite_budget ["add"] none 0 "add" rfl).2.1 [("greet", 20)] (by decide),
   (c9_default_finite_budget ["add"] none 0 "add" rfl).2.2.1 50⟩

/-- Claim C5: a constraint-specification string that is neither a
recognized comparison form (`<=`, `>=`, `==`, `<`, `>` followed by a string
`_parse_number` accepts) nor `startswith:`-prefixed is silently dropped:
`_parse_string_constraint` returns `None`, `_parse_constraints` emits no
constraint for the parameter, and the capability `_build_capabilities`
produces (as called by `create_sandbox_tool`) carries no constraint set at
all for a tool whose only spec entry is that string. -/
theorem c5_unrecognized_constraint_dropped (param s : String)
    (h : recognizedSpec s = false) :
    _parse_string_constraint param s = none ∧
    (_parse_constraints [(param, .str s)]).constraints = [] ∧
    (∀ (name : String) (mc : MaxCallsSpec),
      ((_build_capabilities [name] (some [(name, [(param, .str s)])]) mc).get? 0).map
        MethodCapability.constraints = some none) := by
  have h1 : _parse_string_constraint param s = none := by
    unfold _parse_string_constraint
    split_ifs with hle hge heq hlt hgt hsw
    · cases hn : _parse_number (strDrop s 2) with
      | none => simp [hn]
      | some n => simp [recognizedSpec, hle, hn] at h
    · cases hn : _parse_number (strDrop s 2) with
      | none => simp [hn]
      | some n => simp [recognizedSpec, hge, hn] at h
    · cases hn : _parse_number (strDrop s 2) with
      | none => simp [hn]
      | some n => simp [recognizedSpec, heq, hn] at h
    · cases hn : _parse_number (strDrop s 1) with
      | none => simp [hn]
      | some n => simp [recognizedSpec, hlt, hn] at h
    · cases hn : _parse_number (strDrop s 1) with
      | none => simp [hn]
      | some n => simp [recognizedSpec, hgt, hn] at h
    · simp [recognizedSpec, hsw] at h
    · rfl
  have h2 : (_parse_constraints [(param, .str s)]).constraints = [] := by
    simp [_parse_constraints, _parse_constraints.go, h1]
  refine ⟨h1, h2, ?_⟩
  intro name mc
  have hset : _parse_constraints [(param, PyVal.str s)] = ⟨[]⟩ := by
    cases he : _parse_constraints [(param, PyVal.str s)]
    simp_all
  simp [_build_capabilities, List.lookup, hset, ConstraintSet.is_empty,
    capability_from_function]

/-- Witness for C5 at the test suite's unrecognized spec string
`"unknown format"` for parameter `foo` on a tool named `add`. -/
theorem c5_unrecognized_constraint_dropped_witness :
    _parse_string_constraint "foo" "unknown format" = none ∧
    ((_build_capabilities ["add"]
        (some [("add", [("foo", .str "unknown format")])]) .noneSpec).get? 0).map
      MethodCapability.constraints = some none :=
  ⟨(c5_unrecognized_constraint_dropped "foo" "unknown format" (by decide)).1,
   (c5_unrecognized_constraint_dropped "foo" "unknown format" (by decide)).2.2
     "add" .noneSpec⟩

/-- Charging one capability leaves every other position of the set
untouched. -/
theorem chargeAt_get_ne (caps : List MethodCapability) (j i : Nat) (h : j ≠ i) :
    (chargeAt caps j).get? i = caps.get? i := by
  induction caps generalizing j i with
  | nil => simp [chargeAt]
  | cons c rest ih =>
    cases j with
    | zero =>
      cases i with
      | zero => exact absurd rfl h
      | succ i' => simp [chargeAt]
    | succ j' =>
      cases i with
      | zero => simp [chargeAt]
      | succ i' => simpa [chargeAt] using ih j' i' (by omega)

/-- Charging position `i` replaces the capability there by its charged
version. -/
theorem chargeAt_get_self (caps : List MethodCapability) (i : Nat)
    (c : MethodCapability) (h : caps.get? i = some c) :
    (chargeAt caps i).get? i = some (chargeCap c) := by
  induction caps generalizing i with
  | nil => simp at h
  | cons d rest ih =>
    cases i with
    | zero =>
      simp only [List.get?_cons_zero, Option.some.injEq] at h
      simp [chargeAt, h]
    | succ i' =>
      simp only [List.get?_cons_succ] at h
      simpa [chargeAt] using ih i' h

/-- Invariant behind the budget accounting: running any sequence of
invocation attempts takes the remaining-call tracker of the capability at
position `i` from `k` to `k` minus the number of attempts that dispatched
through position `i` (truncated subtraction; denials charge nothing, and
dispatches through other capabilities do not touch position `i`). -/
theorem runTrace_remaining (trace : List (String × Json)) :
    ∀ (caps : List MethodCapability) (i k : Nat),
      ((caps.get? i).bind MethodCapability.remaining_calls) = some k →
      (((runTrace caps trace).1.get? i).bind MethodCapability.remaining_calls) =
        some (k - ((runTrace caps trace).2.countP (fun r => r == some i))) := by
  induction trace with
  | nil =>
    intro caps i k h
    simpa [runTrace] using h
  | cons mp rest ih =>
    intro caps i k h
    obtain ⟨m, p⟩ := mp
    simp only [runTrace]
    cases hauth : authorize caps m p with
    | error d =>
      simp only [step, hauth, List.countP_cons]
      have hne : ((none : Option Nat) == some i) = false := by simp
      simpa [hne] using ih caps i k h
    | ok j =>
      simp only [step, hauth, List.countP_cons]
      by_cases hji : j = i
      · subst hji
        obtain ⟨c, hc, hrem⟩ : ∃ c, caps.get? j = some c ∧ c.remaining_calls = some k := by
          cases hg : caps.get? j with
          | none => rw [hg] at h; simp at h
          | some c => rw [hg] at h; exact ⟨c, rfl, h⟩
        have hget : ((chargeAt caps j).get? j).bind MethodCapability.remaining_calls =
            some (k - 1) := by
          rw [chargeAt_get_self caps j c hc]
          simp [chargeCap, hrem]
        have := ih (chargeAt caps j) j (k - 1) hget
        have heq : ((some j : Option Nat) == some j) = true := by simp
        rw [this]
        simp only [heq, if_true]
        congr 1
        omega
      · have hget : ((chargeAt caps j).get? i).bind MethodCapability.remaining_calls =
            some k := by
          rw [chargeAt_get_ne caps j i hji]
          exact h
        have hne : ((some j : Option Nat) == some i) = false := by
          simp [hji]
        simpa [hne] using ih (chargeAt caps j) i k hget

/-- Claim C1: budget accounting — a capability constructed with
`max_calls = k` (so its tracker starts at `k`) ends any sequence of
invocation attempts with `remaining = max(0, k − n)` (Nat's truncated
subtraction), where `n` counts exactly the attempts that successfully
dispatched through it; denied invocations, and dispatches through other
capabilities, never decrement it. -/
theorem c1_budget_accounting (caps : List MethodCapability) (i k : Nat)
    (c : MethodCapability) (hget : caps.get? i = some c)
    (hmax : c.max_calls = some k) (hrem : c.remaining_calls = some k)
    (trace : List (String × Json)) :
    (((runTrace caps trace).1.get? i).bind MethodCapability.remaining_calls) =
      some (k - ((runTrace caps trace).2.countP (fun r => r == some i))) :=
  runTrace_remaining trace caps i k (by rw [hget]; simpa using hrem)

/-- Witness for C1: a budget of two calls, two in-budget dispatches, one
non-matching denial and one budget-exhausted denial leave remaining
`2 − 2 = 0`. -/
theorem c1_budget_accounting_witness :
    (((runTrace twoCallCaps fourCallTrace).1.get? 0).bind
        MethodCapability.remaining_calls) =
      some (2 - ((runTrace twoCallCaps fourCallTrace).2.countP
        (fun r => r == some 0))) :=
  c1_budget_accounting twoCallCaps 0 2 (capability_from_function "add" none (some 2))
    rfl rfl rfl fourCallTrace

end Amla
